import Mathlib

/-!
# Render-context deduplication cache (`use-nunjucks.ts`) — shallow embedding

This file embeds the promise cache of
`packages/insomnia/src/ui/context/nunjucks/use-nunjucks.ts`:

```ts
let getRenderContextPromiseCache: any = {};
export const initializeNunjucksRenderPromiseCache = () => {
  getRenderContextPromiseCache = {};
};
initializeNunjucksRenderPromiseCache();

const handleRender = async <T>(obj: T, contextCacheKey: string | null = null) => {
  if (!contextCacheKey || !getRenderContextPromiseCache[contextCacheKey]) {
    getRenderContextPromiseCache[contextCacheKey] = fetchRenderContext();
  }
  setTimeout(() => delete getRenderContextPromiseCache[contextCacheKey], 5000);
  const context = await getRenderContextPromiseCache[contextCacheKey];
  return render(obj, context);
};
```

Modelling decisions, each traceable to a line of the source:

* The cache table is an association list `List (String × Nat)` from the
  JavaScript object's string index to a *computation-handle identifier*.
  Each call of `fetchRenderContext()` allocates a fresh identifier
  (`nextId`), so `nextId` counts Context Builder invocations and two
  handles are the same promise iff their identifiers are equal.
* A JavaScript object index coerces its key to a string: indexing with
  `null` uses the string key `"null"` (`indexOf`).
* The bypass test `!contextCacheKey` is falsiness: true for `null` and
  for the empty string (`isFalsy`).
* `setTimeout(.., 5000)` appends a pending timer `(index, now + 5000)`;
  this happens on *every* call, after the `if`, exactly as in the source.
* The `await` happens after the synchronous segment; the handle a call
  awaits is read from the table at the end of its synchronous segment
  (`(lookupKey ...).getD 0`, total because the segment just stored it).
* A timer firing executes `delete getRenderContextPromiseCache[key]`
  against whatever table is current at firing time (`fireDue`); the
  closure references the module-level binding, so timers scheduled before
  `initializeNunjucksRenderPromiseCache()` still act on the fresh table.
* `runEvents` interleaves calls, cache clears and due-timer firings on
  the single-threaded event loop: all timers due at or before an event's
  wall-clock time fire before the event runs.
-/

/-- A render context, as produced by the Context Builder: a mapping of
renderable keys to values (ancestors elided; opaque to the cache). -/
abbrev RenderContext := List (String × String)

/-- Lookup in the cache table (JavaScript `cache[key]`, `undefined ↦ none`). -/
def lookupKey (c : List (String × Nat)) (k : String) : Option Nat :=
  match c with
  | [] => none
  | p :: rest => if p.1 = k then some p.2 else lookupKey rest k

/-- Store under a key (JavaScript `cache[key] = v`): overwrite if present. -/
def insertKey (c : List (String × Nat)) (k : String) (v : Nat) : List (String × Nat) :=
  match c with
  | [] => [(k, v)]
  | p :: rest => if p.1 = k then (k, v) :: rest else p :: insertKey rest k v

/-- Remove a key (JavaScript `delete cache[key]`). -/
def eraseKey (c : List (String × Nat)) (k : String) : List (String × Nat) :=
  match c with
  | [] => []
  | p :: rest => if p.1 = k then eraseKey rest k else p :: eraseKey rest k

/-- Remove a list of keys in order. -/
def eraseKeys (c : List (String × Nat)) (ks : List String) : List (String × Nat) :=
  match ks with
  | [] => c
  | k :: rest => eraseKeys (eraseKey c k) rest

/-- The module-level mutable state of `use-nunjucks.ts`:
`cache` is `getRenderContextPromiseCache`; `timers` the pending
`setTimeout` deletions as `(string index, absolute firing time in ms)`;
`nextId` the next fresh computation-handle identifier (it counts
`fetchRenderContext()` invocations). -/
structure CacheState where
  cache : List (String × Nat)
  timers : List (String × Nat)
  nextId : Nat
deriving DecidableEq, Repr

/-- The state after module load: empty table, no timers, no builder calls.
(The source runs `initializeNunjucksRenderPromiseCache()` at load.) -/
def initState : CacheState := ⟨[], [], 0⟩

/-- `initializeNunjucksRenderPromiseCache` re-binds the module-level table
to a fresh empty object. Pending timers survive and, through the closure
over the module-level binding, will fire against the *current* table. -/
def resetNunjucksRenderPromiseCache (s : CacheState) : CacheState :=
  ⟨[], s.timers, s.nextId⟩

/-- The string a JavaScript object index coerces the cache key to:
`cache[null]` indexes the property `"null"`. -/
def indexOf : Option String → String
  | none => "null"
  | some k => k

/-- The test `!contextCacheKey`: true for `null` and for `""`. -/
def isFalsy : Option String → Bool
  | none => true
  | some k => decide (k = "")

/-- What one call observes: the identifier of the computation handle it
awaits, and whether this call invoked the Context Builder
(`fetchRenderContext`). -/
structure CallResult where
  handle : Nat
  invoked : Bool
deriving DecidableEq, Repr

/-- The synchronous segment of `handleRender(obj, contextCacheKey)` up to
its `await`: the populate-or-not `if`, the unconditional `setTimeout`
(appended in both branches, mirroring its position outside the `if`), and
the read of `cache[contextCacheKey]` that the call then awaits.
`now` is the wall-clock time of the call in ms. -/
def handleRender (contextCacheKey : Option String) (now : Nat) (s : CacheState) :
    CallResult × CacheState :=
  let idx := indexOf contextCacheKey
  if isFalsy contextCacheKey || (lookupKey s.cache idx).isNone then
    let s1 : CacheState :=
      ⟨insertKey s.cache idx s.nextId, s.timers ++ [(idx, now + 5000)], s.nextId + 1⟩
    (⟨(lookupKey s1.cache idx).getD 0, true⟩, s1)
  else
    let s1 : CacheState :=
      ⟨s.cache, s.timers ++ [(idx, now + 5000)], s.nextId⟩
    (⟨(lookupKey s1.cache idx).getD 0, false⟩, s1)

/-- Awaiting a call's handle under a given Context Builder behaviour:
the builder maps each invocation identifier to its outcome (a resolved
context or a rejection). Equal handles always award equal outcomes. -/
def awaitResult (builder : Nat → Except String RenderContext) (r : CallResult) :
    Except String RenderContext :=
  builder r.handle

/-- The string indexes whose scheduled deletion is due at time `t`. -/
def dueKeys (t : Nat) (s : CacheState) : List String :=
  (s.timers.filter (fun p => decide (p.2 ≤ t))).map Prod.fst

/-- Fire every pending timer due at or before time `t`: each executes
`delete getRenderContextPromiseCache[key]` on the current table. -/
def fireDue (t : Nat) (s : CacheState) : CacheState :=
  ⟨eraseKeys s.cache (dueKeys t s), s.timers.filter (fun p => decide (t < p.2)), s.nextId⟩

/-- `n` calls of `handleRender` with the same key in one event-loop burst:
each call's synchronous segment runs to completion before the next starts
(single-threaded host), and no timer fires in between. -/
def repeatCalls (key : Option String) (t : Nat) : Nat → CacheState → List CallResult × CacheState
  | 0, s => ([], s)
  | n + 1, s =>
    let step := handleRender key t s
    let rest := repeatCalls key t n step.2
    (step.1 :: rest.1, rest.2)

/-- An externally triggered event: a `handleRender` call or an explicit
cache clear. -/
inductive Event where
  | call (key : Option String)
  | clear
deriving DecidableEq, Repr

/-- Run a timed event list on the single-threaded event loop: before an
event at time `t`, all timers due by `t` fire; a `call` records its
`CallResult`. -/
def runEvents : List (Nat × Event) → CacheState → List CallResult × CacheState
  | [], s => ([], s)
  | (t, Event.call key) :: rest, s =>
    let step := handleRender key t (fireDue t s)
    let r := runEvents rest step.2
    (step.1 :: r.1, r.2)
  | (t, Event.clear) :: rest, s =>
    runEvents rest (resetNunjucksRenderPromiseCache (fireDue t s))

/-- All handle identifiers stored in the table were allocated in the past:
they are below the invocation counter. -/
def WF (s : CacheState) : Prop :=
  ∀ p ∈ s.cache, p.2 < s.nextId

instance (s : CacheState) : Decidable (WF s) := by
  unfold WF; infer_instance

/-- Modelled from the spec: `render(value, context)` of
`packages/insomnia/src/common/render.ts` is not part of the sources here;
per §4.2 it is a pure function of its two inputs that replaces template
placeholders of the value using the context's bindings. -/
def render (value : String) (context : RenderContext) : String :=
  context.foldl
    (fun acc p => acc.replace ("\x7b\x7b" ++ p.1 ++ "\x7d\x7d") p.2) value

/-- A call of the Render Invoker in a host whose state is explicit: it
returns the output together with the context as it stands after the call,
making non-mutation of the supplied context a provable equation. -/
def renderCall (value : String) (context : RenderContext) : String × RenderContext :=
  (render value context, context)

/-! ## Association-list table lemmas -/

theorem lookupKey_insert_self (c : List (String × Nat)) (k : String) (v : Nat) :
    lookupKey (insertKey c k v) k = some v := by
  induction c with
  | nil => simp [insertKey, lookupKey]
  | cons p rest ih =>
    by_cases h : p.1 = k
    · simp [insertKey, h, lookupKey]
    · simp [insertKey, h, lookupKey, ih]

theorem lookupKey_eraseKey (c : List (String × Nat)) (k' k : String) :
    lookupKey (eraseKey c k') k = if k = k' then none else lookupKey c k := by
  induction c with
  | nil => by_cases hk : k = k' <;> simp [eraseKey, lookupKey, hk]
  | cons p rest ih =>
    by_cases h : p.1 = k'
    · by_cases hk : k = k'
      · subst hk
        simp [eraseKey, h, ih]
      · have hpk : ¬ p.1 = k := fun e => hk (e ▸ h)
        have hk2 : ¬ k' = k := fun e => hk e.symm
        simp [eraseKey, h, lookupKey, hpk, ih, hk, hk2]
    · by_cases hpk : p.1 = k
      · have hkk : ¬ k = k' := fun e => h (hpk.trans e)
        simp [eraseKey, h, lookupKey, hpk, hkk]
      · simp [eraseKey, h, lookupKey, hpk, ih]

theorem eraseKey_of_lookup_none (c : List (String × Nat)) (k : String)
    (h : lookupKey c k = none) : eraseKey c k = c := by
  induction c with
  | nil => simp [eraseKey]
  | cons p rest ih =>
    by_cases hp : p.1 = k
    · simp [lookupKey, hp] at h
    · simp [lookupKey, hp] at h
      simp [eraseKey, hp, ih h]

theorem lookupKey_eraseKeys_of_none (ks : List String) (c : List (String × Nat)) (k : String)
    (h : lookupKey c k = none) : lookupKey (eraseKeys c ks) k = none := by
  induction ks generalizing c with
  | nil => simpa [eraseKeys] using h
  | cons k' rest ih =>
    apply ih
    rw [lookupKey_eraseKey]
    by_cases hk : k = k' <;> simp [hk, h]

theorem lookupKey_eraseKeys_of_mem (ks : List String) (c : List (String × Nat)) (k : String)
    (h : k ∈ ks) : lookupKey (eraseKeys c ks) k = none := by
  induction ks generalizing c with
  | nil => cases h
  | cons k' rest ih =>
    by_cases hk : k ∈ rest
    · exact ih _ hk
    · have hkk : k = k' := by
        rcases List.mem_cons.mp h with h1 | h1
        · exact h1
        · exact absurd h1 hk
      subst hkk
      show lookupKey (eraseKeys (eraseKey c k) rest) k = none
      apply lookupKey_eraseKeys_of_none
      rw [lookupKey_eraseKey]
      simp

theorem eraseKeys_of_all_none (ks : List String) (c : List (String × Nat))
    (h : ∀ k ∈ ks, lookupKey c k = none) : eraseKeys c ks = c := by
  induction ks with
  | nil => rfl
  | cons k rest ih =>
    have h1 : eraseKey c k = c := eraseKey_of_lookup_none c k (h k (by simp))
    show eraseKeys (eraseKey c k) rest = c
    rw [h1]
    exact ih (fun k' hk' => h k' (by simp [hk']))

theorem mem_insertKey (c : List (String × Nat)) (k : String) (v : Nat)
    (p : String × Nat) (h : p ∈ insertKey c k v) : p = (k, v) ∨ p ∈ c := by
  induction c with
  | nil => simpa [insertKey] using h
  | cons q rest ih =>
    by_cases hq : q.1 = k
    · simp only [insertKey, hq, if_pos rfl] at h
      rcases List.mem_cons.mp h with h1 | h1
      · exact Or.inl h1
      · exact Or.inr (List.mem_cons.mpr (Or.inr h1))
    · simp only [insertKey, hq, if_neg hq] at h
      rcases List.mem_cons.mp h with h1 | h1
      · exact Or.inr (List.mem_cons.mpr (Or.inl h1))
      · rcases ih h1 with h2 | h2
        · exact Or.inl h2
        · exact Or.inr (List.mem_cons.mpr (Or.inr h2))

theorem mem_eraseKey (c : List (String × Nat)) (k : String)
    (p : String × Nat) (h : p ∈ eraseKey c k) : p ∈ c := by
  induction c with
  | nil => simp [eraseKey] at h
  | cons q rest ih =>
    by_cases hq : q.1 = k
    · simp only [eraseKey, if_pos hq] at h
      exact List.mem_cons.mpr (Or.inr (ih h))
    · simp only [eraseKey, if_neg hq] at h
      rcases List.mem_cons.mp h with h1 | h1
      · exact List.mem_cons.mpr (Or.inl h1)
      · exact List.mem_cons.mpr (Or.inr (ih h1))

theorem mem_eraseKeys (ks : List String) (c : List (String × Nat))
    (p : String × Nat) (h : p ∈ eraseKeys c ks) : p ∈ c := by
  induction ks generalizing c with
  | nil => exact h
  | cons k rest ih => exact mem_eraseKey c k p (ih (eraseKey c k) h)

/-! ## Branch characterizations of `handleRender` -/

/-- When the bypass-or-miss test holds (`!contextCacheKey ||
!cache[contextCacheKey]`), the call invokes the Context Builder,
stores the fresh handle under the string index, schedules one eviction
timer, and awaits the fresh handle. -/
theorem handleRender_populate (key : Option String) (t : Nat) (s : CacheState)
    (hc : (isFalsy key || (lookupKey s.cache (indexOf key)).isNone) = true) :
    handleRender key t s =
      (⟨s.nextId, true⟩,
       ⟨insertKey s.cache (indexOf key) s.nextId,
        s.timers ++ [(indexOf key, t + 5000)], s.nextId + 1⟩) := by
  simp only [handleRender, hc, if_true, lookupKey_insert_self, Option.getD_some]

/-- When the key is truthy and present, the call invokes nothing, leaves
the table and the invocation counter unchanged, schedules one eviction
timer, and awaits the stored handle. -/
theorem handleRender_skip (key : Option String) (t : Nat) (s : CacheState)
    (hc : (isFalsy key || (lookupKey s.cache (indexOf key)).isNone) = false) :
    handleRender key t s =
      (⟨(lookupKey s.cache (indexOf key)).getD 0, false⟩,
       ⟨s.cache, s.timers ++ [(indexOf key, t + 5000)], s.nextId⟩) := by
  simp only [handleRender, hc, Bool.false_eq_true, if_false]

/-! ## Well-formedness: cached handles were allocated in the past -/

theorem wf_initState : WF initState := by
  intro p hp
  simp [initState] at hp

theorem wf_handleRender (key : Option String) (t : Nat) (s : CacheState)
    (h : WF s) : WF (handleRender key t s).2 := by
  by_cases hc : (isFalsy key || (lookupKey s.cache (indexOf key)).isNone) = true
  · rw [handleRender_populate key t s hc]
    intro p hp
    rcases mem_insertKey s.cache (indexOf key) s.nextId p hp with h1 | h1
    · simp [h1]
    · exact Nat.lt_succ_of_lt (h p h1)
  · rw [handleRender_skip key t s (Bool.eq_false_iff.mpr hc)]
    exact h

theorem wf_fireDue (t : Nat) (s : CacheState) (h : WF s) : WF (fireDue t s) := by
  intro p hp
  exact h p (mem_eraseKeys _ s.cache p hp)

theorem wf_reset (s : CacheState) : WF (resetNunjucksRenderPromiseCache s) := by
  intro p hp
  simp [resetNunjucksRenderPromiseCache] at hp

/-! ## Further helper lemmas -/

theorem mem_of_lookupKey (c : List (String × Nat)) (k : String) (v : Nat)
    (h : lookupKey c k = some v) : (k, v) ∈ c := by
  induction c with
  | nil => simp [lookupKey] at h
  | cons p rest ih =>
    by_cases hp : p.1 = k
    · simp only [lookupKey, if_pos hp, Option.some.injEq] at h
      have hpv : p = (k, v) := by
        cases p
        simp_all
      rw [← hpv]
      exact List.mem_cons_self _ _
    · simp only [lookupKey, if_neg hp] at h
      exact List.mem_cons.mpr (Or.inr (ih h))

theorem handleRender_timers (key : Option String) (t : Nat) (s : CacheState) :
    (handleRender key t s).2.timers = s.timers ++ [(indexOf key, t + 5000)] := by
  by_cases hc : (isFalsy key || (lookupKey s.cache (indexOf key)).isNone) = true
  · rw [handleRender_populate key t s hc]
  · rw [handleRender_skip key t s (Bool.eq_false_iff.mpr hc)]

theorem mem_dueKeys (s : CacheState) (idx : String) (tf t : Nat)
    (hm : (idx, tf) ∈ s.timers) (hle : tf ≤ t) : idx ∈ dueKeys t s := by
  unfold dueKeys
  apply List.mem_map.mpr
  exact ⟨(idx, tf), List.mem_filter.mpr ⟨hm, by simpa using hle⟩, rfl⟩

/-- In one event-loop burst, every call that finds the key cached returns
the cached handle without touching the table or the invocation counter. -/
theorem repeatCalls_hit (k : String) (t : Nat) (hv : Nat) (n : Nat)
    (s : CacheState) (hf : isFalsy (some k) = false)
    (hl : lookupKey s.cache k = some hv) :
    (repeatCalls (some k) t n s).1 = List.replicate n ⟨hv, false⟩ ∧
    (repeatCalls (some k) t n s).2.cache = s.cache ∧
    (repeatCalls (some k) t n s).2.nextId = s.nextId := by
  induction n generalizing s with
  | zero => simp [repeatCalls]
  | succ n ih =>
    have hc : (isFalsy (some k) || (lookupKey s.cache (indexOf (some k))).isNone) = false := by
      simp [indexOf, hf, hl]
    have hstep := handleRender_skip (some k) t s hc
    have hrec := ih ⟨s.cache, s.timers ++ [(indexOf (some k), t + 5000)], s.nextId⟩ hl
    simp only [repeatCalls, hstep]
    refine ⟨?_, hrec.2.1, hrec.2.2⟩
    simp only [List.replicate_succ, indexOf, hl, Option.getD_some, List.cons.injEq]
    exact ⟨trivial, hrec.1⟩

/-! ## Claim theorems -/

/-- C1: for a present (truthy) cache key `k` absent from the table, `N = n + 1`
calls of `handleRender` with key `k` in one event-loop burst (before any
eviction of `k` fires) invoke the Context Builder exactly once — the first
call allocates handle `s.nextId` and the invocation counter rises by exactly
one — and all `N` calls await that identical handle, hence resolve to the
same result; the handle stays cached under `k`. -/
theorem contextBuilder_invoked_once_per_key (k : String) (s : CacheState) (t n : Nat)
    (hk : ¬ k = "") (habs : lookupKey s.cache k = none) :
    (repeatCalls (some k) t (n + 1) s).1 =
      ⟨s.nextId, true⟩ :: List.replicate n ⟨s.nextId, false⟩ ∧
    (repeatCalls (some k) t (n + 1) s).2.nextId = s.nextId + 1 ∧
    lookupKey (repeatCalls (some k) t (n + 1) s).2.cache k = some s.nextId := by
  have hf : isFalsy (some k) = false := by simp [isFalsy, hk]
  have hc : (isFalsy (some k) || (lookupKey s.cache (indexOf (some k))).isNone) = true := by
    simp [indexOf, habs]
  have hstep := handleRender_populate (some k) t s hc
  have hl1 : lookupKey
      (⟨insertKey s.cache (indexOf (some k)) s.nextId,
        s.timers ++ [(indexOf (some k), t + 5000)], s.nextId + 1⟩ : CacheState).cache k
      = some s.nextId := lookupKey_insert_self _ _ _
  have hrec := repeatCalls_hit k t s.nextId n _ hf hl1
  simp only [repeatCalls, hstep]
  exact ⟨by rw [hrec.1], by rw [hrec.2.2], by rw [hrec.2.1]; exact hl1⟩

/-- Witness for C1 at `k = "req-1"`, two concurrent calls from the initial
state: one builder invocation, both calls await handle `0`. -/
theorem contextBuilder_invoked_once_per_key_witness :
    (repeatCalls (some "req-1") 0 2 initState).1 =
      ⟨initState.nextId, true⟩ :: List.replicate 1 ⟨initState.nextId, false⟩ ∧
    (repeatCalls (some "req-1") 0 2 initState).2.nextId = initState.nextId + 1 ∧
    lookupKey (repeatCalls (some "req-1") 0 2 initState).2.cache "req-1" =
      some initState.nextId :=
  contextBuilder_invoked_once_per_key "req-1" initState 0 1 (by decide) (by decide)

/-- C2 counterexample: the claim says a `null`-key call never populates the
cache table, but from the freshly initialized state a single `null`-key call
leaves the table holding the new handle under the string index `"null"`
(`cache[null] = fetchRenderContext()` runs because `!contextCacheKey` holds). -/
theorem nullKey_populates_table_cex :
    initState.cache = [] ∧
    (handleRender none 0 initState).2.cache = [("null", 0)] := by
  exact ⟨rfl, rfl⟩

/-- C2 amended: every `null`-key call invokes the Context Builder and awaits a
brand-new handle without consulting the table, and two `null`-key calls never
share a handle — but each such call *does* populate the table, storing its
fresh handle under the string index `"null"` (overwriting what was there). -/
theorem nullKey_always_fresh (s : CacheState) (t t2 : Nat) (hwf : WF s) :
    (handleRender none t s).1.invoked = true ∧
    (handleRender none t s).1.handle = s.nextId ∧
    (∀ p ∈ s.cache, p.2 ≠ (handleRender none t s).1.handle) ∧
    lookupKey (handleRender none t s).2.cache "null" = some s.nextId ∧
    (handleRender none t2 (handleRender none t s).2).1.handle ≠
      (handleRender none t s).1.handle ∧
    (handleRender none t2 (handleRender none t s).2).1.invoked = true := by
  have hc : ∀ s' : CacheState,
      (isFalsy none || (lookupKey s'.cache (indexOf none)).isNone) = true := by
    intro s'; simp [isFalsy]
  rw [handleRender_populate none t s (hc s)]
  rw [handleRender_populate none t2 _ (hc _)]
  refine ⟨rfl, rfl, ?_, ?_, ?_, rfl⟩
  · intro p hp
    exact Nat.ne_of_lt (hwf p hp)
  · exact lookupKey_insert_self _ _ _
  · simp

/-- Witness for C2's amended claim at the freshly initialized state. -/
theorem nullKey_always_fresh_witness :
    (handleRender none 0 initState).1.invoked = true ∧
    (handleRender none 0 initState).1.handle = initState.nextId ∧
    (∀ p ∈ initState.cache, p.2 ≠ (handleRender none 0 initState).1.handle) ∧
    lookupKey (handleRender none 0 initState).2.cache "null" = some initState.nextId ∧
    (handleRender none 1 (handleRender none 0 initState).2).1.handle ≠
      (handleRender none 0 initState).1.handle ∧
    (handleRender none 1 (handleRender none 0 initState).2).1.invoked = true :=
  nullKey_always_fresh initState 0 1 (by decide)

/-- C3: if the handle stored under a truthy key is a failed computation
(the builder rejected it), a caller for that key before eviction performs no
fresh builder attempt (`invoked = false`, counter unchanged), awaits that very
handle, observes the identical failure, and the failed entry stays in the
table untouched. -/
theorem failedHandle_stays_cached (key : Option String) (s : CacheState) (hv : Nat)
    (builder : Nat → Except String RenderContext) (e : String) (t : Nat)
    (hf : isFalsy key = false)
    (hl : lookupKey s.cache (indexOf key) = some hv)
    (hb : builder hv = Except.error e) :
    (handleRender key t s).1.invoked = false ∧
    (handleRender key t s).1.handle = hv ∧
    awaitResult builder (handleRender key t s).1 = Except.error e ∧
    (handleRender key t s).2.cache = s.cache ∧
    (handleRender key t s).2.nextId = s.nextId := by
  have hc : (isFalsy key || (lookupKey s.cache (indexOf key)).isNone) = false := by
    simp [hf, hl]
  rw [handleRender_skip key t s hc]
  refine ⟨rfl, ?_, ?_, rfl, rfl⟩
  · simp [hl]
  · simp [awaitResult, hl, hb]

/-- Witness for C3: key `"k"` holds failed handle `0` whose builder outcome
is the rejection `"boom"`; a second caller observes exactly that failure. -/
theorem failedHandle_stays_cached_witness :
    (handleRender (some "k") 0 ⟨[("k", 0)], [], 1⟩).1.invoked = false ∧
    (handleRender (some "k") 0 ⟨[("k", 0)], [], 1⟩).1.handle = 0 ∧
    awaitResult (fun _ => Except.error "boom")
      (handleRender (some "k") 0 ⟨[("k", 0)], [], 1⟩).1 = Except.error "boom" ∧
    (handleRender (some "k") 0 ⟨[("k", 0)], [], 1⟩).2.cache =
      (⟨[("k", 0)], [], 1⟩ : CacheState).cache ∧
    (handleRender (some "k") 0 ⟨[("k", 0)], [], 1⟩).2.nextId =
      (⟨[("k", 0)], [], 1⟩ : CacheState).nextId :=
  failedHandle_stays_cached (some "k") ⟨[("k", 0)], [], 1⟩ 0
    (fun _ => Except.error "boom") "boom" 0 (by decide) (by decide) rfl

/-- C4 counterexample: the claim says a cache-hit call schedules no eviction
timer, but after populating `"a"` at time 0, the hit call at time 100
(`invoked = false`) leaves two pending timers — `setTimeout` runs outside the
populate `if`, on every call. -/
theorem timer_on_hit_cex :
    (handleRender (some "a") 100 (handleRender (some "a") 0 initState).2).1.invoked
      = false ∧
    (handleRender (some "a") 100 (handleRender (some "a") 0 initState).2).2.timers
      = [("a", 5000), ("a", 5100)] := by
  exact ⟨rfl, rfl⟩

/-- C4 amended: *every* call — populating, cache hit, or falsy-key bypass —
schedules exactly one eviction timer, always with the same fixed 5000 ms
delay, keyed on the call's string index. -/
theorem every_call_schedules_one_timer (key : Option String) (t : Nat) (s : CacheState) :
    (handleRender key t s).2.timers = s.timers ++ [(indexOf key, t + 5000)] :=
  handleRender_timers key t s

/-- C5: the table entry touched by a call at time `t` (whether or not its
handle is ever awaited) is gone once the fixed 5000 ms delay has elapsed and
the due timers have fired: at any time `t2 ≥ t + 5000` with no intervening
repopulation the key's index is absent, and a subsequent call with the same
key is a cache miss that invokes the Context Builder afresh. -/
theorem entry_evicted_after_delay (key : Option String) (s : CacheState) (t t2 : Nat)
    (h : t + 5000 ≤ t2) :
    lookupKey (fireDue t2 (handleRender key t s).2).cache (indexOf key) = none ∧
    (handleRender key t2 (fireDue t2 (handleRender key t s).2)).1.invoked = true := by
  have hm : (indexOf key, t + 5000) ∈ (handleRender key t s).2.timers := by
    rw [handleRender_timers]
    simp
  have hdue : indexOf key ∈ dueKeys t2 (handleRender key t s).2 :=
    mem_dueKeys _ _ _ _ hm h
  have habs : lookupKey (fireDue t2 (handleRender key t s).2).cache (indexOf key)
      = none :=
    lookupKey_eraseKeys_of_mem _ _ _ hdue
  refine ⟨habs, ?_⟩
  have hc : (isFalsy key ||
      (lookupKey (fireDue t2 (handleRender key t s).2).cache (indexOf key)).isNone)
      = true := by
    simp [habs]
  rw [handleRender_populate _ _ _ hc]

/-- Witness for C5: populate `"req-1"` at time 0; at time 5000 the entry is
gone and a new call is a miss that invokes the builder. -/
theorem entry_evicted_after_delay_witness :
    lookupKey (fireDue 5000 (handleRender (some "req-1") 0 initState).2).cache
      (indexOf (some "req-1")) = none ∧
    (handleRender (some "req-1") 5000
      (fireDue 5000 (handleRender (some "req-1") 0 initState).2)).1.invoked = true :=
  entry_evicted_after_delay (some "req-1") initState 0 5000 (by decide)

/-- C6: when an eviction timer for an index fires, it removes whatever entry
is then stored under that index, unconditionally — even a handle stored after
the timer was scheduled. Its witness runs the sharp-edge trace: `"a"` is
populated at 0, the table is cleared at 1000, `"a"` is repopulated at 2000
(own timer due at 7000), yet the stale timer due at 5000 evicts the fresh
entry early. -/
theorem timer_fires_unconditionally (s : CacheState) (idx : String) (tf t : Nat)
    (hm : (idx, tf) ∈ s.timers) (hle : tf ≤ t) :
    lookupKey (fireDue t s).cache idx = none :=
  lookupKey_eraseKeys_of_mem _ _ _ (mem_dueKeys s idx tf t hm hle)

/-- Witness for C6 on the sharp-edge trace: the freshly repopulated entry
`("a", 1)` (whose own timer is due only at 7000) is evicted when the stale
timer from time 0 fires at 5000. -/
theorem timer_fires_unconditionally_witness :
    (runEvents [(0, Event.call (some "a")), (1000, Event.clear),
        (2000, Event.call (some "a"))] initState).2.cache = [("a", 1)] ∧
    ("a", 5000) ∈ (runEvents [(0, Event.call (some "a")), (1000, Event.clear),
        (2000, Event.call (some "a"))] initState).2.timers ∧
    ("a", 7000) ∈ (runEvents [(0, Event.call (some "a")), (1000, Event.clear),
        (2000, Event.call (some "a"))] initState).2.timers ∧
    lookupKey (fireDue 5000 (runEvents [(0, Event.call (some "a")),
        (1000, Event.clear), (2000, Event.call (some "a"))] initState).2).cache "a"
      = none :=
  ⟨by decide, by decide, by decide,
    timer_fires_unconditionally
      (runEvents [(0, Event.call (some "a")), (1000, Event.clear),
        (2000, Event.call (some "a"))] initState).2
      "a" 5000 5000 (by decide) (by decide)⟩

/-- C7: a `null`-key call stores its fresh handle under the stringified index
`"null"`; a subsequent call with the literal string key `"null"` (before any
eviction) is a cache *hit* that receives that very handle with no new Context
Builder invocation; and a `null`-key call overwrites whatever handle the
string key `"null"` previously held. -/
theorem nullString_alias (s : CacheState) (t t2 : Nat) (hwf : WF s) :
    (handleRender none t s).1.handle = s.nextId ∧
    lookupKey (handleRender none t s).2.cache "null" = some s.nextId ∧
    (handleRender (some "null") t2 (handleRender none t s).2).1.invoked = false ∧
    (handleRender (some "null") t2 (handleRender none t s).2).1.handle =
      (handleRender none t s).1.handle ∧
    (handleRender (some "null") t2 (handleRender none t s).2).2.nextId =
      (handleRender none t s).2.nextId ∧
    (∀ h0, lookupKey s.cache "null" = some h0 → h0 ≠ s.nextId) := by
  have hc : (isFalsy none || (lookupKey s.cache (indexOf none)).isNone) = true := by
    simp [isFalsy]
  rw [handleRender_populate none t s hc]
  have hl1 : lookupKey (insertKey s.cache (indexOf none) s.nextId) "null"
      = some s.nextId := lookupKey_insert_self _ _ _
  have hc2 : (isFalsy (some "null") ||
      (lookupKey (insertKey s.cache (indexOf none) s.nextId)
        (indexOf (some "null"))).isNone) = false := by
    simp [isFalsy, indexOf]
    rw [lookupKey_insert_self]
    simp
  rw [handleRender_skip (some "null") t2 _ hc2]
  refine ⟨rfl, hl1, rfl, ?_, rfl, ?_⟩
  · show (lookupKey (insertKey s.cache (indexOf none) s.nextId)
      (indexOf (some "null"))).getD 0 = s.nextId
    rw [show indexOf (some "null") = "null" from rfl, hl1]
    rfl
  · intro h0 hh0
    exact Nat.ne_of_lt (hwf ("null", h0) (mem_of_lookupKey s.cache "null" h0 hh0))

/-- Witness for C7: from a state already holding `("null", 3)`, the `null`-key
call overwrites it with fresh handle `4`, and a `"null"`-string call then
shares handle `4` without invoking the builder. -/
theorem nullString_alias_witness :
    (handleRender none 0 ⟨[("null", 3)], [], 4⟩).1.handle =
      (⟨[("null", 3)], [], 4⟩ : CacheState).nextId ∧
    lookupKey (handleRender none 0 ⟨[("null", 3)], [], 4⟩).2.cache "null" =
      some (⟨[("null", 3)], [], 4⟩ : CacheState).nextId ∧
    (handleRender (some "null") 1
      (handleRender none 0 ⟨[("null", 3)], [], 4⟩).2).1.invoked = false ∧
    (handleRender (some "null") 1
      (handleRender none 0 ⟨[("null", 3)], [], 4⟩).2).1.handle =
      (handleRender none 0 ⟨[("null", 3)], [], 4⟩).1.handle ∧
    (handleRender (some "null") 1
      (handleRender none 0 ⟨[("null", 3)], [], 4⟩).2).2.nextId =
      (handleRender none 0 ⟨[("null", 3)], [], 4⟩).2.nextId ∧
    (∀ h0, lookupKey (⟨[("null", 3)], [], 4⟩ : CacheState).cache "null" = some h0 →
      h0 ≠ (⟨[("null", 3)], [], 4⟩ : CacheState).nextId) :=
  nullString_alias ⟨[("null", 3)], [], 4⟩ 0 1 (by decide)

/-- C8 counterexample: the claim says a timer scheduled before a clear that
fires afterwards always finds its key absent and leaves the table unchanged.
But the timer's deletion closes over the module-level table binding: after
populate `"b"` at 0, clear at 1000 and repopulate `"b"` at 2000, the stale
timer firing at 5000 finds `"b"` *present* (fresh handle `1`) and removes it,
changing the table. -/
theorem stale_timer_after_clear_cex :
    lookupKey (runEvents [(0, Event.call (some "b")), (1000, Event.clear),
        (2000, Event.call (some "b"))] initState).2.cache "b" = some 1 ∧
    (fireDue 5000 (runEvents [(0, Event.call (some "b")), (1000, Event.clear),
        (2000, Event.call (some "b"))] initState).2).cache ≠
      (runEvents [(0, Event.call (some "b")), (1000, Event.clear),
        (2000, Event.call (some "b"))] initState).2.cache := by
  exact ⟨by decide, by decide⟩

/-- C8 amended: `initializeNunjucksRenderPromiseCache` removes every key from
the table; a timer scheduled before the clear that fires afterwards is
harmless — it leaves the table's entries unchanged — *provided* every index
whose deletion is due is absent at firing time (in particular when no
repopulation of its key happened since the clear). If the key was
repopulated, the stale timer evicts the fresh entry instead. -/
theorem reset_clears_and_absent_timers_harmless (s : CacheState) (t : Nat)
    (h : ∀ k ∈ dueKeys t s, lookupKey s.cache k = none) :
    (resetNunjucksRenderPromiseCache s).cache = [] ∧
    (fireDue t s).cache = s.cache :=
  ⟨rfl, eraseKeys_of_all_none _ _ h⟩

/-- Witness for C8's amended claim: populate `"b"` at 0 and clear at 1000;
the stale timer firing at 5000 finds the table empty and changes nothing. -/
theorem reset_clears_and_absent_timers_harmless_witness :
    (resetNunjucksRenderPromiseCache (runEvents [(0, Event.call (some "b")),
        (1000, Event.clear)] initState).2).cache = [] ∧
    (fireDue 5000 (runEvents [(0, Event.call (some "b")),
        (1000, Event.clear)] initState).2).cache =
      (runEvents [(0, Event.call (some "b")), (1000, Event.clear)] initState).2.cache :=
  reset_clears_and_absent_timers_harmless
    (runEvents [(0, Event.call (some "b")), (1000, Event.clear)] initState).2
    5000 (by decide)

/-- C9: `render(value, context)` is a pure function of its two inputs: a call
leaves the supplied context exactly as it was, and a second call with the
same value on the context as left by the first yields the identical output.
(`render` is modelled from the spec, §4.2; `renderCall` threads the context
state explicitly so that non-mutation is an equation.) -/
theorem render_pure (value : String) (context : RenderContext) :
    (renderCall value context).2 = context ∧
    (renderCall value (renderCall value context).2).1 = (renderCall value context).1 :=
  ⟨rfl, rfl⟩

/-- C10: the empty string, although a present string key, is falsy and thus
takes the bypass branch exactly like `null`: every call with key `""` invokes
the Context Builder afresh, awaits the brand-new handle (never one already in
the table), and its observable call result coincides with that of a
`null`-key call from the same state. -/
theorem emptyStringKey_bypasses (s : CacheState) (t : Nat) (hwf : WF s) :
    isFalsy (some "") = true ∧
    (handleRender (some "") t s).1.invoked = true ∧
    (handleRender (some "") t s).1.handle = s.nextId ∧
    (∀ p ∈ s.cache, p.2 ≠ (handleRender (some "") t s).1.handle) ∧
    (handleRender (some "") t s).1 = (handleRender none t s).1 := by
  have hc : (isFalsy (some "") ||
      (lookupKey s.cache (indexOf (some ""))).isNone) = true := by
    simp [isFalsy]
  have hcn : (isFalsy none || (lookupKey s.cache (indexOf none)).isNone) = true := by
    simp [isFalsy]
  rw [handleRender_populate (some "") t s hc, handleRender_populate none t s hcn]
  refine ⟨rfl, rfl, rfl, ?_, rfl⟩
  intro p hp
  exact Nat.ne_of_lt (hwf p hp)

/-- Witness for C10: the table already holds the entry `("", 7)` under the
empty-string key, yet a call with key `""` ignores it and awaits the fresh
handle `8`. -/
theorem emptyStringKey_bypasses_witness :
    isFalsy (some "") = true ∧
    (handleRender (some "") 0 ⟨[("", 7)], [], 8⟩).1.invoked = true ∧
    (handleRender (some "") 0 ⟨[("", 7)], [], 8⟩).1.handle =
      (⟨[("", 7)], [], 8⟩ : CacheState).nextId ∧
    (∀ p ∈ (⟨[("", 7)], [], 8⟩ : CacheState).cache,
      p.2 ≠ (handleRender (some "") 0 ⟨[("", 7)], [], 8⟩).1.handle) ∧
    (handleRender (some "") 0 ⟨[("", 7)], [], 8⟩).1 =
      (handleRender none 0 ⟨[("", 7)], [], 8⟩).1 :=
  emptyStringKey_bypasses ⟨[("", 7)], [], 8⟩ 0 (by decide)
